import Mathlib

/-!
Shallow embedding of the per-account wallet core of btcwallet (account.go):
the data model (block stamps, UTXOs, transaction records), the global
address-to-account registry, balance computation under confirmation
policies, transaction-history listing, address issuance and private-key
import, reorg rollback, and wallet lock delegation.

External collaborators that account.go consumes (the key-derivation wallet
from package wallet, the tx stores from package tx, GetCurBlock,
writeDirtyToDisk, btcutil encoding helpers, and the btcd notification
requests) are not part of the given source; where a claim depends on them
they are modelled from the specification and each such definition says so
in its doc comment.  Machine arithmetic is made explicit: the Go uint64
balance accumulator wraps modulo 2^64, the Go int32 height arithmetic
wraps into the signed 32-bit range, and the Go int subtraction computing
the listing loop's lower bound wraps into the signed 64-bit range.
-/

/-- Sentinel best-block height meaning the current block is unknown
(the external constant btcutil.BlockHeightUnknown, which is -1). -/
def blockHeightUnknown : Int := -1

/-- Number of satoshi per bitcoin (the external constant
btcutil.SatoshiPerBitcoin); CalculateBalance divides by it at the end. -/
def satoshiPerBitcoin : Nat := 100000000

/-- Modulus of unsigned 64-bit machine arithmetic.  The running balance
in CalculateBalance is a Go uint64 and wraps at this modulus. -/
def u64Mod : Nat := 2 ^ 64

/-- Two's-complement wrap-around of signed 32-bit machine arithmetic:
Go int32 addition and subtraction land in [-2^31, 2^31).  A chain of
int32 additions and subtractions wraps at every step, which agrees with
wrapping the exact integer result once at the end. -/
def wrap32 (x : Int) : Int := (x + 2 ^ 31) % 2 ^ 32 - 2 ^ 31

/-- Two's-complement wrap-around of signed 64-bit machine arithmetic:
Go int (64-bit here) addition and subtraction land in [-2^63, 2^63).
The lastLookupIdx subtraction in ListTransactions is such an
operation. -/
def wrap64 (x : Int) : Int := (x + 2 ^ 63) % 2 ^ 64 - 2 ^ 63

/-- A point in the best chain (wallet.BlockStamp): a height and a block
hash.  Hashes are modelled as natural numbers. -/
structure BlockStamp where
  height : Int
  hash : Nat
deriving Repr, DecidableEq

/-- The result of the external current-block provider GetCurBlock:
the returned stamp together with an error flag (true when GetCurBlock
returned a non-nil error).  account.go always receives both values and
inspects them itself. -/
abbrev CurBlockResult := BlockStamp × Bool

/-- An unspent transaction output (tx.Utxo): the 20-byte pubkey hash it
pays (modelled as a number), its amount in satoshi (a Go uint64), the
height of the block holding it (-1 while only in the mempool), its
outpoint and the hash of the block holding it. -/
structure Utxo where
  addrHash : Nat
  amt : Nat
  height : Int
  outHash : Nat
  outIndex : Nat
  blockHash : Nat
deriving Repr, DecidableEq

/-- One output of a recorded send transaction (the per-output data that
tx.SendTx.TxInfo reports one row for). -/
structure TxOut where
  addrHash : Nat
  amt : Nat
deriving Repr, DecidableEq

/-- A recorded wallet transaction (the tx.TxRecord interface): either a
received transaction (tx.RecvTx, with the receiving pubkey hash) or a
sent transaction (tx.SendTx, with one entry per output). -/
inductive TxRecord where
  | recvTx (txHash : Nat) (receiverHash : Nat) (amt : Nat) (height : Int)
  | sendTx (txHash : Nat) (outputs : List TxOut) (height : Int)
deriving Repr, DecidableEq

/-- One transaction-detail row as produced for listtransactions replies:
account name, direction, the involved pubkey hash and amount, the
record's block height and the best-block height used for confirmation
counts, and the owning transaction hash. -/
structure TxInfoRow where
  account : String
  isSend : Bool
  txHash : Nat
  addrHash : Nat
  amount : Nat
  height : Int
  bestHeight : Int
deriving Repr, DecidableEq

/-- Modelled from the spec: the TxInfo methods of tx.RecvTx and tx.SendTx
(package tx is not part of the given source).  A SendRecord expands into
one detail row per output and a ReceiveRecord into exactly one row. -/
def TxRecord.TxInfo (r : TxRecord) (account : String) (bestHeight : Int) : List TxInfoRow :=
  match r with
  | .recvTx txHash receiverHash amt height =>
      [{ account := account
         isSend := false
         txHash := txHash
         addrHash := receiverHash
         amount := amt
         height := height
         bestHeight := bestHeight }]
  | .sendTx txHash outputs height =>
      outputs.map (fun o =>
        { account := account
          isSend := true
          txHash := txHash
          addrHash := o.addrHash
          amount := o.amt
          height := height
          bestHeight := bestHeight })

/-- A payment address, identified by its pubkey hash (all addresses the
core issues or imports are pay-to-pubkey-hash). -/
structure Address where
  pkHash : Nat
deriving Repr, DecidableEq

/-- Modelled from the spec: btcutil address encoding.  The base58 string
encoding of an address is injective in the pubkey hash; it is modelled as
the decimal numeral of the hash. -/
def Address.EncodeAddress (a : Address) : String := Nat.repr a.pkHash

/-- Modelled from the spec: the pubkey hash of an imported private key's
payment address.  Hashing is abstracted as the identity on the modelled
key number (only injectivity matters to the claims). -/
def addressOfKey (key : Nat) : Address := ⟨key⟩

/-- A key imported into the key-derivation wallet together with its
compressedness and birth block stamp. -/
structure ImportedKey where
  key : Nat
  compressed : Bool
  birth : BlockStamp
deriving Repr, DecidableEq

/-- Modelled from the spec: the state of the key-derivation wallet
(package wallet is not part of the given source).  It knows its network,
its passphrase-protected lock state, the sequence of chained addresses it
has issued (the last one is the most recently issued), a counter for the
next chained address, and its imported keys.  chainFail abstracts the
failure possibility of NextChainedAddress that account.go checks for. -/
structure Wallet where
  net : Nat
  passphrase : Nat
  locked : Bool
  chainedAddrs : List Address
  chainIndex : Nat
  chainFail : Bool
  importedKeys : List ImportedKey
deriving Repr, DecidableEq

/-- Modelled from the spec: wallet.Wallet.LastChainedAddress returns the
most recently issued chained address. -/
def Wallet.LastChainedAddress (w : Wallet) : Address :=
  w.chainedAddrs.getLastD ⟨0⟩

/-- Modelled from the spec: wallet.Wallet.NextChainedAddress issues the
next address in the derivation sequence, tagged with the supplied block
stamp (the stamp bounds future rescans and is not tracked further here).
Failure is abstracted by the chainFail flag. -/
def Wallet.NextChainedAddress (w : Wallet) (_bs : BlockStamp) :
    Except String (Wallet × Address) :=
  if w.chainFail then .error "cannot get next chained address"
  else
    .ok ({ w with
           chainIndex := w.chainIndex + 1
           chainedAddrs := w.chainedAddrs ++ [⟨w.chainIndex⟩] },
         ⟨w.chainIndex⟩)

/-- Modelled from the spec: wallet.Wallet.ImportPrivateKey inserts a
private key with its birth stamp and returns the payment address string;
it fails when the wallet is locked (key material is unavailable). -/
def Wallet.ImportPrivateKey (w : Wallet) (key : Nat) (compressed : Bool)
    (bs : BlockStamp) : Except String (Wallet × String) :=
  if w.locked then .error "wallet is locked"
  else
    .ok ({ w with importedKeys := w.importedKeys ++ [⟨key, compressed, bs⟩] },
         (addressOfKey key).EncodeAddress)

/-- Modelled from the spec: wallet.Wallet.Unlock succeeds exactly on the
correct passphrase, clearing the locked flag; a wrong passphrase is an
error and leaves the wallet unchanged. -/
def Wallet.Unlock (w : Wallet) (pp : Nat) : Wallet × Except String Unit :=
  if pp == w.passphrase then ({ w with locked := false }, .ok ())
  else (w, .error "wrong passphrase")

/-- Instrumented delegate call to wallet.Wallet.Unlock: threads an
invocation counter so that the number of delegations performed by
Account.Unlock is part of the embedded state. -/
def Wallet.UnlockCounted (w : Wallet) (pp : Nat) (calls : Nat) :
    (Wallet × Nat) × Except String Unit :=
  let r := w.Unlock pp
  ((r.1, calls + 1), r.2)

/-- A decoded WIF private-key encoding as btcutil.DecodePrivateKey sees
it: validity of the encoding, the key, its network and compressedness. -/
structure Wif where
  valid : Bool
  privKey : Nat
  net : Nat
  compressed : Bool
deriving Repr, DecidableEq

/-- Modelled from the spec: btcutil.DecodePrivateKey returns the key,
its network and compressedness, or an error for a malformed encoding. -/
def DecodePrivateKey (wif : Wif) : Except String (Nat × Nat × Bool) :=
  if wif.valid then .ok (wif.privKey, wif.net, wif.compressed)
  else .error "malformed private key"

/-- The Account aggregate (the Account struct of account.go): the
key-derivation wallet, the account name, the wallet dirty flag, the
full-rescan flag, and the two ledgers with their own dirty flags. -/
structure Account where
  wallet : Wallet
  name : String
  dirty : Bool
  fullRescan : Bool
  utxoDirty : Bool
  utxoStore : List Utxo
  txDirty : Bool
  txStore : List TxRecord
deriving Repr, DecidableEq

/-- Account.Net delegates to the wallet's configured network. -/
def Account.Net (a : Account) : Nat := a.wallet.net

/-- Modelled from the spec: writeDirtyToDisk (not part of the given
source) is the best-effort flush to durable storage; a successful flush
clears every dirty flag, a failed flush reports an error and leaves all
in-memory state, dirty flags included, untouched.  The flush outcome is
an external circumstance and is passed in as flushOk. -/
def writeDirtyToDisk (a : Account) (flushOk : Bool) : Account × Except String Unit :=
  if flushOk then
    ({ a with
       dirty := false
       utxoDirty := false
       txDirty := false }, .ok ())
  else (a, .error "write failed")

/-- The global address-to-account registry (addressAccountMap): an
association list from encoded address strings to account names, most
recent entry first. -/
abbrev Registry := List (String × String)

/-- MarkAddressForAccount records an address as belonging to an account
(map insert; a later entry for the same address shadows earlier ones). -/
def MarkAddressForAccount (address account : String) (reg : Registry) : Registry :=
  (address, account) :: reg

/-- LookupAccountByAddress returns the account name for an address, or
none (the Go code's ErrNotFound) when the address was never marked. -/
def LookupAccountByAddress (reg : Registry) (address : String) : Option String :=
  (reg.find? (fun p => p.1 == address)).map (fun p => p.2)

/-- The confirmation filter applied to each UTXO by CalculateBalance and
CalculateAddressBalance, translated from the loop condition
confirms == 0 or (u.Height != -1 and int(bs.Height-u.Height+1) >= confirms);
the height difference is computed in wrapping int32 arithmetic exactly as
in Go. -/
def includeUtxo (bestHeight confirms : Int) (u : Utxo) : Bool :=
  confirms == 0 ||
    (u.height != -1 && decide (confirms ≤ wrap32 (bestHeight - u.height + 1)))

/-- The satoshi accumulator of Account.CalculateBalance: zero when the
current-block provider reported an error or the Unknown sentinel height,
otherwise the uint64 (wrapping) sum of the amounts of the UTXOs passing
the confirmation filter.  The Go function finally returns this value
divided by satoshiPerBitcoin as a float64. -/
def Account.CalculateBalanceSat (a : Account) (cur : CurBlockResult) (confirms : Int) : Nat :=
  if cur.1.height == blockHeightUnknown || cur.2 then 0
  else
    a.utxoStore.foldl
      (fun bal u => if includeUtxo cur.1.height confirms u then (bal + u.amt) % u64Mod else bal)
      0

/-- Account.CalculateBalance with the final division by the satoshi
ratio carried out exactly in the rationals (the Go code returns the same
quantity rounded to float64). -/
def Account.CalculateBalance (a : Account) (cur : CurBlockResult) (confirms : Int) : ℚ :=
  (a.CalculateBalanceSat cur confirms : ℚ) / (satoshiPerBitcoin : ℚ)

/-- The satoshi accumulator of Account.CalculateAddressBalance: as for
CalculateBalance but, inside the confirmation filter, only UTXOs paying
the given pubkey hash are added. -/
def Account.CalculateAddressBalanceSat (a : Account) (cur : CurBlockResult)
    (addrHash : Nat) (confirms : Int) : Nat :=
  if cur.1.height == blockHeightUnknown || cur.2 then 0
  else
    a.utxoStore.foldl
      (fun bal u =>
        if includeUtxo cur.1.height confirms u then
          if addrHash == u.addrHash then (bal + u.amt) % u64Mod else bal
        else bal)
      0

/-- Account.CalculateAddressBalance with the exact rational division. -/
def Account.CalculateAddressBalance (a : Account) (cur : CurBlockResult)
    (addrHash : Nat) (confirms : Int) : ℚ :=
  (a.CalculateAddressBalanceSat cur addrHash confirms : ℚ) / (satoshiPerBitcoin : ℚ)

/-- Account.AddressUsed: whether any recorded receive transaction pays
the given address's pubkey hash (the linear scan over the TxStore). -/
def Account.AddressUsed (a : Account) (addr : Address) : Bool :=
  a.txStore.any (fun r =>
    match r with
    | .recvTx _ receiverHash _ _ => receiverHash == addr.pkHash
    | .sendTx _ _ _ => false)

/-- Concatenation of the detail rows of a list of records in the order
given (the repeated txInfoList = append(txInfoList, infos...) of the
listing loops). -/
def rowsOf (account : String) (bestHeight : Int) (rs : List TxRecord) : List TxInfoRow :=
  rs.foldr (fun r acc => r.TxInfo account bestHeight ++ acc) []

/-- The reverse-order loop of Account.ListTransactions, translated
iteration by iteration: starting at index i it runs while
from <= i and lastLookupIdx <= i, reads the record at i (none models the
Go runtime panic of an out-of-range slice index) and prepends its rows to
those of the remaining iterations.  The fuel argument only bounds the
recursion depth; every caller supplies more fuel than the loop can
consume, so fuel exhaustion is unreachable. -/
def txInfoGo (account : String) (bestHeight : Int) (s : List TxRecord)
    (frm lastLookupIdx : Int) : Nat → Int → Option (List TxInfoRow)
  | 0, _ => none
  | fuel + 1, i =>
    if frm ≤ i ∧ lastLookupIdx ≤ i then
      if h : 0 ≤ i ∧ i < (s.length : Int) then
        (txInfoGo account bestHeight s frm lastLookupIdx fuel (i - 1)).map
          (fun rows => (s.get ⟨i.toNat, by omega⟩).TxInfo account bestHeight ++ rows)
      else none
    else some []

/-- Account.ListTransactions: fails when the current-block provider
reported an error, otherwise walks the TxStore from the most recently
added record backwards, bounded below by the from index and by
lastLookupIdx = len - count -- a machine-int subtraction that wraps in
signed 64-bit arithmetic exactly as in Go -- expanding each record into
its detail rows.  The outer some/none distinguishes normal returns from
the runtime panic the loop can hit at a negative index. -/
def Account.ListTransactions (a : Account) (cur : CurBlockResult) (frm count : Int) :
    Option (Except String (List TxInfoRow)) :=
  if cur.2 then some (.error "cannot get current block")
  else
    match txInfoGo a.name cur.1.height a.txStore frm
        (wrap64 ((a.txStore.length : Int) - count))
        (a.txStore.length + 1) ((a.txStore.length : Int) - 1) with
    | none => none
    | some rows => some (.ok rows)

/-- Account.ListAddressTransactions: fails when the current-block
provider reported an error, otherwise scans the TxStore in forward
insertion order and emits one row per receive record whose receiver hash
belongs to the queried set. -/
def Account.ListAddressTransactions (a : Account) (cur : CurBlockResult)
    (pkHashes : List Nat) : Except String (List TxInfoRow) :=
  if cur.2 then .error "cannot get current block"
  else
    .ok (a.txStore.foldl
      (fun acc r =>
        match r with
        | .recvTx _ receiverHash _ _ =>
            if receiverHash ∈ pkHashes then acc ++ r.TxInfo a.name cur.1.height else acc
        | .sendTx _ _ _ => acc)
      [])

/-- Account.ListAllTransactions: fails when the current-block provider
reported an error, otherwise expands the whole TxStore from the most
recently added record backwards. -/
def Account.ListAllTransactions (a : Account) (cur : CurBlockResult) :
    Except String (List TxInfoRow) :=
  if cur.2 then .error "cannot get current block"
  else .ok (rowsOf a.name cur.1.height a.txStore.reverse)

/-- Modelled from the spec: tx.UtxoStore.Rollback (package tx is not part
of the given source) removes every UTXO at or above the rollback height
that is not in the still-valid chain prefix ending at the supplied stamp,
and reports whether any removal happened. -/
def utxoStoreRollback (s : List Utxo) (height : Int) (hash : Nat) : List Utxo × Bool :=
  let kept := s.filter (fun u => u.height < height || (u.height == height && u.blockHash == hash))
  (kept, kept.length != s.length)

/-- Modelled from the spec: tx.TxStore.Rollback removes every record at
or above the rollback height and reports whether any removal happened
(records carry no block hash in this model, so the still-valid tip's own
records are identified by height alone). -/
def txStoreRollback (s : List TxRecord) (height : Int) : List TxRecord × Bool :=
  let keep : TxRecord → Bool := fun r =>
    match r with
    | .recvTx _ _ _ h => h < height
    | .sendTx _ _ h => h < height
  let kept := s.filter keep
  (kept, kept.length != s.length)

/-- Account.Rollback: rolls the UTXO ledger back, folding the mutation
report into its dirty flag, then does the same for the tx ledger, and
finally performs the best-effort flush (whose failure is only logged). -/
def Account.Rollback (a : Account) (height : Int) (hash : Nat) (flushOk : Bool) : Account :=
  let ur := utxoStoreRollback a.utxoStore height hash
  let a1 := { a with
              utxoStore := ur.1
              utxoDirty := a.utxoDirty || ur.2 }
  let tr := txStoreRollback a1.txStore height
  let a2 := { a1 with
              txStore := tr.1
              txDirty := a1.txDirty || tr.2 }
  (writeDirtyToDisk a2 flushOk).1

/-- The state an account operation can touch: the account itself, the
global address-to-account registry, and the logs of outbound requests to
the node peer (transaction-notification and rescan requests). -/
structure World where
  acct : Account
  registry : Registry
  txNotifyRequests : List String
  rescanRequests : List (Int × String)
deriving Repr, DecidableEq

/-- The outcome of a stateful account operation: the final state and the
operation's return value. -/
structure OpOut (α : Type) where
  world : World
  ret : Except String α
deriving Repr

/-- Account.NewAddress over the world state: aborts on a current-block
error, asks the wallet for the next chained address, marks the account
dirty, flushes best-effort (a flush failure is only logged), registers
the address for the account and requests transaction notifications
for it. -/
def World.NewAddress (w : World) (cur : CurBlockResult) (flushOk : Bool) : OpOut Address :=
  if cur.2 then { world := w, ret := .error "cannot get current block" }
  else
    match w.acct.wallet.NextChainedAddress cur.1 with
    | .error e => { world := w, ret := .error e }
    | .ok (wal2, addr) =>
      let acct1 := { w.acct with
                     wallet := wal2
                     dirty := true }
      let acct2 := (writeDirtyToDisk acct1 flushOk).1
      { world := { w with
                   acct := acct2
                   registry := MarkAddressForAccount addr.EncodeAddress acct2.name w.registry
                   txNotifyRequests := w.txNotifyRequests ++ [addr.EncodeAddress] }
        ret := .ok addr }

/-- Account.ImportWIFPrivateKey over the world state: decodes the WIF
encoding, rejects a key for the wrong network before any mutation,
imports the key into the wallet, marks the account dirty, flushes, and
only then registers the imported address; a flush failure is logged and
reported as an import failure. -/
def World.ImportWIFPrivateKey (w : World) (wif : Wif) (bs : BlockStamp)
    (flushOk : Bool) : OpOut String :=
  match DecodePrivateKey wif with
  | .error e => { world := w, ret := .error e }
  | .ok (key, net, compressed) =>
    if net ≠ w.acct.Net then { world := w, ret := .error "wrong network" }
    else
      match w.acct.wallet.ImportPrivateKey key compressed bs with
      | .error e => { world := w, ret := .error e }
      | .ok (wal2, addr) =>
        let acct1 := { w.acct with
                       wallet := wal2
                       dirty := true }
        match writeDirtyToDisk acct1 flushOk with
        | (acct2, .error e) =>
          { world := { w with acct := acct2 }
            ret := .error ("import failed: cannot write wallet: " ++ e) }
        | (acct2, .ok _) =>
          { world := { w with
                       acct := acct2
                       registry := MarkAddressForAccount addr acct2.name w.registry }
            ret := .ok addr }

/-- Account.ImportPrivKey over the world state: imports with a genesis
birth stamp and, when rescan is requested and the import succeeded,
issues a rescan request for the new address and flushes again with the
result ignored. -/
def World.ImportPrivKey (w : World) (wif : Wif) (rescan : Bool)
    (flushOk flushOk2 : Bool) : World × Except String Unit :=
  let bs : BlockStamp := { height := 0, hash := 0 }
  let out := w.ImportWIFPrivateKey wif bs flushOk
  match out.ret with
  | .error e => (out.world, .error e)
  | .ok addr =>
    if rescan then
      let w2 := { out.world with
                  rescanRequests := out.world.rescanRequests ++ [(bs.height, addr)] }
      ({ w2 with acct := (writeDirtyToDisk w2.acct flushOk2).1 }, .ok ())
    else (out.world, .ok ())

/-- Account.CurrentAddress over the world state: takes the wallet's most
recently issued chained address and returns it unless it has already
been used, in which case it issues and returns a fresh address via
NewAddress. -/
def World.CurrentAddress (w : World) (cur : CurBlockResult) (flushOk : Bool) : OpOut Address :=
  let addr := w.acct.wallet.LastChainedAddress
  if w.acct.AddressUsed addr then w.NewAddress cur flushOk
  else { world := w, ret := .ok addr }

/-- The observable outcome of Account.Unlock: the final wallet state, the
number of times the operation delegated to the wallet's own Unlock, and
whether a lock-state-changed notification was emitted, together with the
returned error value. -/
structure UnlockTrace where
  wallet : Wallet
  unlockCalls : Nat
  notified : Bool
  ret : Except String Unit
deriving Repr

/-- Account.Unlock, translated statement by statement: it delegates to
the wallet's Unlock, emits the notification when that first delegation
succeeded, and then returns the result of a second delegation to the
wallet's Unlock. -/
def Account.Unlock (a : Account) (passphrase : Nat) : UnlockTrace :=
  let r1 := a.wallet.UnlockCounted passphrase 0
  let notified := match r1.2 with
    | .ok _ => true
    | .error _ => false
  let r2 := r1.1.1.UnlockCounted passphrase r1.1.2
  { wallet := r2.1.1
    unlockCalls := r2.1.2
    notified := notified
    ret := r2.2 }

/-- A wrapping uint64 accumulation guarded by a predicate equals the
plain sum of the selected amounts reduced once modulo 2^64. -/
lemma foldl_filter_balance (p : Utxo → Bool) (l : List Utxo) (b : Nat) :
    l.foldl (fun bal u => if p u then (bal + u.amt) % u64Mod else bal) (b % u64Mod)
      = (b + ((l.filter p).map Utxo.amt).sum) % u64Mod := by
  induction l generalizing b with
  | nil => simp
  | cons u t ih =>
    by_cases hp : p u
    · simp only [List.foldl_cons, hp, if_pos, List.filter_cons_of_pos,
        List.map_cons, List.sum_cons]
      rw [Nat.mod_add_mod, ih (b + u.amt), Nat.add_assoc]
    · simp only [List.foldl_cons, hp, if_neg, Bool.false_eq_true,
        not_false_iff, List.filter_cons_of_neg]
      exact ih b

/-- The nested address test of CalculateAddressBalance is the same
accumulation with a conjoined predicate. -/
lemma foldl_addr_balance (H c : Int) (addrH : Nat) (l : List Utxo) (b : Nat) :
    l.foldl
        (fun bal u =>
          if includeUtxo H c u then
            if addrH == u.addrHash then (bal + u.amt) % u64Mod else bal
          else bal) b
      = l.foldl
          (fun bal u =>
            if includeUtxo H c u && (addrH == u.addrHash) then
              (bal + u.amt) % u64Mod
            else bal) b := by
  induction l generalizing b with
  | nil => rfl
  | cons u t ih =>
    by_cases h1 : includeUtxo H c u <;> by_cases h2 : (addrH == u.addrHash) <;>
      simp only [List.foldl_cons, h1, h2, Bool.true_and, Bool.false_and,
        Bool.and_self, if_pos, if_neg, Bool.false_eq_true, not_false_iff] <;>
      exact ih _

/-- With zero requested confirmations every UTXO passes the filter. -/
lemma includeUtxo_zero (H : Int) (u : Utxo) : includeUtxo H 0 u = true := by
  simp [includeUtxo]

/-- With at least one requested confirmation the filter demands a mined
UTXO whose wrapping int32 confirmation count reaches the request. -/
lemma includeUtxo_pos (H c : Int) (u : Utxo) (hc : 1 ≤ c) :
    includeUtxo H c u = true ↔ u.height ≠ -1 ∧ c ≤ wrap32 (H - u.height + 1) := by
  have hc0 : (c == 0) = false := by
    simp only [beq_eq_false_iff_ne, ne_eq]
    omega
  simp [includeUtxo, hc0, Bool.and_eq_true, bne_iff_ne, decide_eq_true_eq]

/-- Wrapping a value already inside the signed 32-bit range is the
identity; in particular one confirmation stays one confirmation. -/
lemma wrap32_one : wrap32 1 = 1 := by decide

/-- A UTXO sitting exactly at the best height passes the filter for at
most one requested confirmation, i.e. it counts as one confirmation. -/
lemma includeUtxo_at_tip (H c : Int) (u : Utxo) (hH : H ≠ -1) (hu : u.height = H) :
    (includeUtxo H c u = true ↔ c ≤ 1) := by
  have harith : H - u.height + 1 = 1 := by omega
  have hw : wrap32 (H - u.height + 1) = 1 := by rw [harith, wrap32_one]
  have hne : u.height ≠ -1 := by omega
  by_cases hc : 1 ≤ c
  · rw [includeUtxo_pos H c u hc, hw]
    constructor
    · exact fun h => h.2
    · exact fun h => ⟨hne, h⟩
  · simp only [includeUtxo, hw, Bool.or_eq_true, Bool.and_eq_true, beq_iff_eq,
      bne_iff_ne, decide_eq_true_eq]
    constructor
    · rintro (h0 | ⟨_, h1⟩) <;> omega
    · intro h
      by_cases hc0 : c = 0
      · exact Or.inl hc0
      · exact Or.inr ⟨hne, h⟩

/-- CalculateBalance under a valid current block is the wrapping sum of
the amounts of exactly the filtered UTXOs. -/
lemma CalculateBalanceSat_eq (a : Account) (bs : BlockStamp) (c : Int)
    (hbs : bs.height ≠ blockHeightUnknown) :
    a.CalculateBalanceSat (bs, false) c
      = ((a.utxoStore.filter (includeUtxo bs.height c)).map Utxo.amt).sum % u64Mod := by
  have h1 : (bs.height == blockHeightUnknown || false) = false := by
    simp [beq_eq_false_iff_ne, hbs]
  have h2 := foldl_filter_balance (includeUtxo bs.height c) a.utxoStore 0
  simp only [Nat.zero_mod, Nat.zero_add] at h2
  simp only [Account.CalculateBalanceSat, h1, Bool.false_eq_true, if_neg,
    not_false_iff]
  exact h2

/-- CalculateAddressBalance under a valid current block is the wrapping
sum of the amounts of exactly the filtered UTXOs paying the address. -/
lemma CalculateAddressBalanceSat_eq (a : Account) (bs : BlockStamp) (addrH : Nat)
    (c : Int) (hbs : bs.height ≠ blockHeightUnknown) :
    a.CalculateAddressBalanceSat (bs, false) addrH c
      = ((a.utxoStore.filter
            (fun u => includeUtxo bs.height c u && (addrH == u.addrHash))).map
              Utxo.amt).sum % u64Mod := by
  have h1 : (bs.height == blockHeightUnknown || false) = false := by
    simp [beq_eq_false_iff_ne, hbs]
  have h2 := foldl_filter_balance
    (fun u => includeUtxo bs.height c u && (addrH == u.addrHash)) a.utxoStore 0
  simp only [Nat.zero_mod, Nat.zero_add] at h2
  simp only [Account.CalculateAddressBalanceSat, h1, Bool.false_eq_true, if_neg,
    not_false_iff]
  rw [foldl_addr_balance]
  exact h2

/-- The confirmation filter exactly as claim C1 words it, in unbounded
integer arithmetic: with zero confirmations every entry passes, otherwise
an entry passes iff its height is not -1 and bestHeight - height + 1
reaches the requested confirmations.  This spec-side definition exists to
be compared with the source-side includeUtxo. -/
def claimIncludeUtxo (bestHeight confirms : Int) (u : Utxo) : Bool :=
  confirms == 0 ||
    (u.height != -1 && decide (confirms ≤ bestHeight - u.height + 1))

/-- The balance exactly as claim C1 words it: the plain sum of the
amounts of the entries passing the claim's filter. -/
def claimBalanceSat (bestHeight confirms : Int) (us : List Utxo) : Nat :=
  ((us.filter (claimIncludeUtxo bestHeight confirms)).map Utxo.amt).sum

/-- A wallet shared by the concrete sample states below. -/
def sampleWallet : Wallet :=
  { net := 1
    passphrase := 42
    locked := false
    chainedAddrs := [⟨100⟩, ⟨101⟩]
    chainIndex := 2
    chainFail := false
    importedKeys := [] }

/-- A mined UTXO at height zero; summed together with a best height at
the top of the int32 range it exercises the wrapping window arithmetic. -/
def overflowUtxo : Utxo :=
  { addrHash := 1, amt := 5, height := 0, outHash := 9, outIndex := 0, blockHash := 77 }

/-- An account holding exactly overflowUtxo. -/
def overflowAccount : Account :=
  { wallet := sampleWallet
    name := "sample"
    dirty := false
    fullRescan := false
    utxoDirty := false
    utxoStore := [overflowUtxo]
    txDirty := false
    txStore := [] }

/-- Claim C1, as stated, is false on the code: at best height 2147483647
(the top of int32) a UTXO mined at height 0 has claim-side window
2147483648 >= 2, so the claim includes its 5 satoshi, but the code's
int32 window wraps to -2147483648 and CalculateBalance(2) yields 0. -/
theorem claim_C1_counterexample :
    overflowAccount.CalculateBalanceSat ({ height := 2147483647, hash := 0 }, false) 2 = 0
    ∧ claimBalanceSat 2147483647 2 [overflowUtxo] = 5 := by
  constructor
  · rfl
  · rfl

/-- Claim C1 (amended): for every UTXO set and every valid best height H,
CalculateBalance sums -- as a wrapping uint64 -- the amounts of exactly
the entries passing the source's confirmation filter, whose window is
computed in wrapping int32 arithmetic: with confirmations 0 every entry
passes (height -1 included); with confirmations >= 1 an entry passes iff
height != -1 and wrap32(H - height + 1) >= confirmations; an entry at
height == H counts as exactly 1 confirmation.  CalculateAddressBalance
additionally restricts to the queried pubkey hash. -/
theorem claim_C1 (a : Account) (bs : BlockStamp) (confirms : Int) (addrH : Nat)
    (hbs : bs.height ≠ blockHeightUnknown) :
    a.CalculateBalanceSat (bs, false) confirms
        = ((a.utxoStore.filter (includeUtxo bs.height confirms)).map Utxo.amt).sum % u64Mod
    ∧ a.CalculateAddressBalanceSat (bs, false) addrH confirms
        = ((a.utxoStore.filter
              (fun u => includeUtxo bs.height confirms u && (addrH == u.addrHash))).map
                Utxo.amt).sum % u64Mod
    ∧ (∀ u, includeUtxo bs.height 0 u = true)
    ∧ (1 ≤ confirms → ∀ u : Utxo,
        (includeUtxo bs.height confirms u = true ↔
          u.height ≠ -1 ∧ confirms ≤ wrap32 (bs.height - u.height + 1)))
    ∧ (∀ u : Utxo, u.height = bs.height →
        (includeUtxo bs.height confirms u = true ↔ confirms ≤ 1)) := by
  refine ⟨CalculateBalanceSat_eq a bs confirms hbs,
    CalculateAddressBalanceSat_eq a bs addrH confirms hbs,
    fun u => includeUtxo_zero bs.height u,
    fun hc u => includeUtxo_pos bs.height confirms u hc,
    fun u hu => includeUtxo_at_tip bs.height confirms u ?_ hu⟩
  intro h
  exact hbs (by simpa [blockHeightUnknown] using h)

/-- Concrete instance of claim C1 (amended) at best height 10 with one
requested confirmation on the sample account. -/
theorem claim_C1_witness :
    overflowAccount.CalculateBalanceSat ({ height := 10, hash := 0 }, false) 1
      = ((overflowAccount.utxoStore.filter (includeUtxo 10 1)).map Utxo.amt).sum % u64Mod :=
  (claim_C1 overflowAccount { height := 10, hash := 0 } 1 0 (by decide)).1

/-- Row expansion distributes over concatenation of record lists. -/
lemma rowsOf_append (account : String) (H : Int) (l1 l2 : List TxRecord) :
    rowsOf account H (l1 ++ l2) = rowsOf account H l1 ++ rowsOf account H l2 := by
  induction l1 with
  | nil => rfl
  | cons r t ih =>
    simp only [rowsOf, List.cons_append, List.foldr_cons] at ih ⊢
    rw [ih, List.append_assoc]

/-- As long as the lower loop bound max(from, lastLookupIdx) is not
negative, the listing loop never reads out of range and produces the
rows of the records from that bound up to its start index, most recent
first. -/
lemma txInfoGo_eq (account : String) (H : Int) (s : List TxRecord) (frm low : Int)
    (hsafe : 0 ≤ frm ∨ 0 ≤ low) :
    ∀ fuel : Nat, ∀ i : Int, i < (s.length : Int) → (i + 1).toNat < fuel →
      txInfoGo account H s frm low fuel i
        = some (rowsOf account H
            (((s.take (i + 1).toNat).drop (max frm low).toNat).reverse)) := by
  intro fuel
  induction fuel with
  | zero => intro i _ hf; omega
  | succ fuel ih =>
    intro i hi hf
    by_cases hgo : frm ≤ i ∧ low ≤ i
    · have h0 : 0 ≤ i := by rcases hsafe with h | h <;> omega
      have hidx : 0 ≤ i ∧ i < (s.length : Int) := ⟨h0, hi⟩
      have hrec := ih (i - 1) (by omega) (by omega)
      have hk : i.toNat < s.length := by omega
      have hm : (max frm low).toNat ≤ i.toNat := by omega
      have hi1 : (i + 1).toNat = i.toNat + 1 := by omega
      have hi0 : (i - 1 + 1).toNat = i.toNat := by omega
      rw [txInfoGo, if_pos hgo, dif_pos hidx, hrec, hi0, Option.map_some']
      rw [hi1, List.take_succ, List.getElem?_eq_getElem hk]
      have hlt : (max frm low).toNat ≤ (s.take i.toNat).length := by
        rw [List.length_take]
        omega
      rw [List.drop_append_of_le_length hlt]
      simp only [Option.toList_some, List.reverse_append, List.reverse_cons,
        List.reverse_nil, List.nil_append, List.singleton_append]
      simp only [rowsOf, List.foldr_cons, List.get_eq_getElem]
    · have hstop : (max frm low).toNat ≥ (i + 1).toNat := by
        rcases hsafe with h | h <;> omega
      have hnil : ((s.take (i + 1).toNat).drop (max frm low).toNat) = [] := by
        apply List.drop_eq_nil_of_le
        rw [List.length_take]
        omega
      rw [txInfoGo, if_neg hgo, hnil]
      rfl

/-- Wrapping a value already inside the signed 64-bit range is the
identity; in particular lastLookupIdx equals length - count for every
count that does not overflow the subtraction. -/
lemma wrap64_eq_self (x : Int) (h1 : -(2 ^ 63) ≤ x) (h2 : x < 2 ^ 63) :
    wrap64 x = x := by
  unfold wrap64
  omega

/-- Account.ListTransactions with a valid current block and a
non-negative lower loop bound returns exactly the rows of the records
whose index is at least max(from, lastLookupIdx), where lastLookupIdx is
the wrapping int64 difference length - count, in reverse insertion
order. -/
lemma ListTransactions_eq (a : Account) (cur : CurBlockResult) (frm count : Int)
    (hg : cur.2 = false)
    (hsafe : 0 ≤ frm ∨ 0 ≤ wrap64 ((a.txStore.length : Int) - count)) :
    a.ListTransactions cur frm count
      = some (.ok (rowsOf a.name cur.1.height
          ((a.txStore.drop
              (max frm (wrap64 ((a.txStore.length : Int) - count))).toNat).reverse))) := by
  have hlen : ((a.txStore.length : Int) - 1) < (a.txStore.length : Int) := by omega
  have hfuel : (((a.txStore.length : Int) - 1) + 1).toNat < a.txStore.length + 1 := by omega
  have h := txInfoGo_eq a.name cur.1.height a.txStore frm
    (wrap64 ((a.txStore.length : Int) - count)) hsafe (a.txStore.length + 1)
    ((a.txStore.length : Int) - 1) hlen hfuel
  have htake : (((a.txStore.length : Int) - 1) + 1).toNat = a.txStore.length := by omega
  rw [htake, List.take_length] at h
  rw [Account.ListTransactions, if_neg (by simp [hg]), h]

/-- Five transaction records in insertion order; the third one is a send
with two outputs to exercise the per-output expansion. -/
def rec0 : TxRecord := TxRecord.recvTx 50 300 10 1
def rec1 : TxRecord := TxRecord.recvTx 51 301 11 2
def rec2 : TxRecord := TxRecord.sendTx 52 [⟨401, 4⟩, ⟨402, 6⟩] 3
def rec3 : TxRecord := TxRecord.recvTx 53 303 13 4
def rec4 : TxRecord := TxRecord.recvTx 54 304 14 5

/-- An account whose ledger holds the five records above. -/
def fiveAccount : Account :=
  { wallet := sampleWallet
    name := "five"
    dirty := false
    fullRescan := false
    utxoDirty := false
    utxoStore := []
    txDirty := false
    txStore := [rec0, rec1, rec2, rec3, rec4] }

/-- An account whose ledger holds exactly one receive record. -/
def oneRecvAccount : Account :=
  { wallet := sampleWallet
    name := "one"
    dirty := false
    fullRescan := false
    utxoDirty := false
    utxoStore := []
    txDirty := false
    txStore := [TxRecord.recvTx 60 310 9 1] }

/-- An account whose ledger holds exactly two receive records. -/
def twoRecvAccount : Account :=
  { wallet := sampleWallet
    name := "two"
    dirty := false
    fullRescan := false
    utxoDirty := false
    utxoStore := []
    txDirty := false
    txStore := [TxRecord.recvTx 61 311 8 1, TxRecord.recvTx 62 312 7 2] }

/-- Claim C2, as stated for all integers from and count, is false on the
code: on a one-record store, ListTransactions(-2, 3) drives the loop
index to -1 while both loop bounds are still satisfied, so the code
indexes the store out of range (a runtime panic, modelled as none) and
returns no detail rows at all. -/
theorem claim_C2_counterexample :
    oneRecvAccount.ListTransactions ({ height := 100, hash := 0 }, false) (-2) 3 = none := by
  rfl

/-- Claim C2 (amended): for every store and all int64 from and count
with from >= 0 or lastLookupIdx >= 0 -- where lastLookupIdx is the
machine-int difference length - count, wrapping in signed 64-bit
arithmetic as in Go -- ListTransactions returns the rows of exactly the
records with index >= max(from, lastLookupIdx), in reverse insertion
order; lastLookupIdx coincides with the exact difference length - count
whenever that difference stays inside the int64 range; a ReceiveRecord
contributes one row and a SendRecord one row per output; in particular
on a store of 5 records ListTransactions(0, 3) returns the rows of
exactly the 3 most recently appended records in reverse insertion
order. -/
theorem claim_C2 (a : Account) (cur : CurBlockResult) (frm count : Int)
    (hg : cur.2 = false)
    (hsafe : 0 ≤ frm ∨ 0 ≤ wrap64 ((a.txStore.length : Int) - count)) :
    a.ListTransactions cur frm count
      = some (.ok (rowsOf a.name cur.1.height
          ((a.txStore.drop
              (max frm (wrap64 ((a.txStore.length : Int) - count))).toNat).reverse)))
    ∧ (-(2 ^ 63) ≤ (a.txStore.length : Int) - count →
        (a.txStore.length : Int) - count < 2 ^ 63 →
        wrap64 ((a.txStore.length : Int) - count) = (a.txStore.length : Int) - count)
    ∧ (∀ txh rh amt ht,
        ((TxRecord.recvTx txh rh amt ht).TxInfo a.name cur.1.height).length = 1)
    ∧ (∀ txh outs ht,
        ((TxRecord.sendTx txh outs ht).TxInfo a.name cur.1.height).length = outs.length)
    ∧ fiveAccount.ListTransactions ({ height := 100, hash := 0 }, false) 0 3
        = some (.ok (rowsOf "five" 100 [rec4, rec3, rec2])) := by
  refine ⟨ListTransactions_eq a cur frm count hg hsafe, ?_, ?_, ?_, ?_⟩
  · intro h1 h2
    exact wrap64_eq_self _ h1 h2
  · intro txh rh amt ht
    rfl
  · intro txh outs ht
    simp [TxRecord.TxInfo]
  · rfl

/-- Concrete instance of claim C2 (amended) on the five-record account. -/
theorem claim_C2_witness :
    fiveAccount.ListTransactions ({ height := 100, hash := 0 }, false) 0 3
      = some (.ok (rowsOf "five" 100
          ((fiveAccount.txStore.drop
              (max 0 (wrap64 ((fiveAccount.txStore.length : Int) - 3))).toNat).reverse))) :=
  (claim_C2 fiveAccount ({ height := 100, hash := 0 }, false) 0 3 rfl
    (Or.inl (by omega))).1

/-- Claim C10, as stated for negative from as well, is false on the
code: on a two-record store, ListTransactions(-1, 3) satisfies both loop
bounds down to index -1, where the slice access panics (modelled as
none) instead of staying inside the store's bounds. -/
theorem claim_C10_counterexample :
    twoRecvAccount.ListTransactions ({ height := 100, hash := 0 }, false) (-1) 3 = none := by
  rfl

/-- Claim C10 (amended): whenever max(from, lastLookupIdx) is not
negative -- where lastLookupIdx is the machine-int difference
length - count wrapping in signed 64-bit arithmetic as in Go --
ListTransactions stays inside the store's bounds and visits exactly the
indices from max(from, lastLookupIdx) up to length - 1; hence from >=
length yields an empty result without error, and count >= length with
from = 0 (count inside the int64 range) yields the rows of every
record.  With from < 0 and lastLookupIdx < 0 -- count > length without
wrapping, or count so negative that length - count overflows int64 --
the loop reaches index -1 and leaves the bounds (the counterexample). -/
theorem claim_C10 (a : Account) (cur : CurBlockResult) (frm count : Int)
    (hg : cur.2 = false)
    (hsafe : 0 ≤ frm ∨ 0 ≤ wrap64 ((a.txStore.length : Int) - count)) :
    a.ListTransactions cur frm count
      = some (.ok (rowsOf a.name cur.1.height
          ((a.txStore.drop
              (max frm (wrap64 ((a.txStore.length : Int) - count))).toNat).reverse)))
    ∧ ((a.txStore.length : Int) ≤ frm →
        a.ListTransactions cur frm count = some (.ok []))
    ∧ (frm = 0 → (a.txStore.length : Int) ≤ count → count < 2 ^ 63 →
        a.ListTransactions cur frm count
          = some (.ok (rowsOf a.name cur.1.height a.txStore.reverse))) := by
  have hmain := ListTransactions_eq a cur frm count hg hsafe
  refine ⟨hmain, ?_, ?_⟩
  · intro hfrom
    have hnil : a.txStore.drop
        (max frm (wrap64 ((a.txStore.length : Int) - count))).toNat = [] := by
      apply List.drop_eq_nil_of_le
      omega
    rw [hmain, hnil]
    rfl
  · intro h0 hcount hrange
    subst h0
    have hw : wrap64 ((a.txStore.length : Int) - count)
        = (a.txStore.length : Int) - count := by
      apply wrap64_eq_self <;> omega
    have hz : (max (0 : Int) (wrap64 ((a.txStore.length : Int) - count))).toNat = 0 := by
      rw [hw]
      omega
    rw [hmain, hz, List.drop_zero]

/-- Concrete instance of claim C10 (amended): from beyond the end of the
five-record store yields an empty result without error. -/
theorem claim_C10_witness :
    fiveAccount.ListTransactions ({ height := 100, hash := 0 }, false) 7 2
      = some (.ok []) :=
  (claim_C10 fiveAccount ({ height := 100, hash := 0 }, false) 7 2 rfl
    (Or.inl (by omega))).2.1 (by decide)

/-- Claim C4, as stated, is false on the code: when the current-block
provider returns the Unknown sentinel height with a nil error, the
balance path treats the chain state as invalid and yields 0, but
ListTransactions does not check for the sentinel and returns detail rows
(computed against the sentinel height) instead of failing. -/
theorem claim_C4_counterexample :
    oneRecvAccount.CalculateBalanceSat ({ height := -1, hash := 0 }, false) 0 = 0
    ∧ oneRecvAccount.ListTransactions ({ height := -1, hash := 0 }, false) 0 1
        = some (.ok (rowsOf "one" (-1) [TxRecord.recvTx 60 310 9 1])) := by
  exact ⟨rfl, rfl⟩

/-- Claim C4 (amended): balance queries return 0 whenever the provider
reports an error or the Unknown sentinel height; the history queries
fail explicitly exactly when the provider reports an error, and with a
nil error they proceed even at the sentinel height. -/
theorem claim_C4 (a : Account) (cur : CurBlockResult) (addrH : Nat)
    (confirms frm count : Int) (pkHashes : List Nat)
    (hbad : cur.1.height = blockHeightUnknown ∨ cur.2 = true) :
    a.CalculateBalanceSat cur confirms = 0
    ∧ a.CalculateAddressBalanceSat cur addrH confirms = 0
    ∧ a.CalculateBalance cur confirms = 0
    ∧ a.CalculateAddressBalance cur addrH confirms = 0
    ∧ (cur.2 = true →
        a.ListTransactions cur frm count = some (.error "cannot get current block")
        ∧ a.ListAddressTransactions cur pkHashes = .error "cannot get current block"
        ∧ a.ListAllTransactions cur = .error "cannot get current block")
    ∧ (cur.2 = false →
        a.ListAllTransactions cur = .ok (rowsOf a.name cur.1.height a.txStore.reverse)) := by
  have hcond : (cur.1.height == blockHeightUnknown || cur.2) = true := by
    rcases hbad with h | h <;> simp [h]
  have hs : a.CalculateBalanceSat cur confirms = 0 := by
    simp [Account.CalculateBalanceSat, hcond]
  have ha : a.CalculateAddressBalanceSat cur addrH confirms = 0 := by
    simp [Account.CalculateAddressBalanceSat, hcond]
  refine ⟨hs, ha, ?_, ?_, ?_, ?_⟩
  · simp [Account.CalculateBalance, hs]
  · simp [Account.CalculateAddressBalance, ha]
  · intro h
    refine ⟨?_, ?_, ?_⟩ <;>
      simp [Account.ListTransactions, Account.ListAddressTransactions,
        Account.ListAllTransactions, h]
  · intro h
    simp [Account.ListAllTransactions, h]

/-- Concrete instance of claim C4 (amended): a provider error zeroes the
balance on the five-record account. -/
theorem claim_C4_witness :
    fiveAccount.CalculateBalanceSat ({ height := 3, hash := 0 }, true) 1 = 0 :=
  (claim_C4 fiveAccount ({ height := 3, hash := 0 }, true) 0 1 0 2 []
    (Or.inr rfl)).1

/-- An account with both ledger dirty flags already set and empty
ledgers. -/
def dirtyAccount : Account :=
  { wallet := sampleWallet
    name := "dirty"
    dirty := false
    fullRescan := false
    utxoDirty := true
    utxoStore := []
    txDirty := true
    txStore := [] }

/-- Claim C8, as stated, is false on the code: Rollback ends with a
best-effort flush, and a successful flush clears the dirty flags, so a
flag that was set before the call is false after it, although the claim
says the flag stays true. -/
theorem claim_C8_counterexample :
    dirtyAccount.utxoDirty = true
    ∧ (dirtyAccount.Rollback 5 0 true).utxoDirty = false
    ∧ (dirtyAccount.Rollback 5 0 true).txDirty = false := by
  exact ⟨rfl, rfl, rfl⟩

/-- Claim C8 (amended): immediately after the two ledger updates each
dirty flag equals its old value OR-ed with that ledger's mutation
report, and Rollback never clears a set flag at that point; the
trailing best-effort flush then clears all flags when it succeeds and
leaves them untouched when it fails, so the flag after the whole call is
(not flushOk) AND (old OR mutated). -/
theorem claim_C8 (a : Account) (height : Int) (hash : Nat) (flushOk : Bool) :
    (a.Rollback height hash flushOk).utxoDirty
        = (!flushOk && (a.utxoDirty || (utxoStoreRollback a.utxoStore height hash).2))
    ∧ (a.Rollback height hash flushOk).txDirty
        = (!flushOk && (a.txDirty || (txStoreRollback a.txStore height).2)) := by
  cases flushOk <;> simp [Account.Rollback, writeDirtyToDisk]

/-- Claim C9: the code delegates to the wallet's Unlock twice per
Account.Unlock call (returning the second call's result and notifying on
the first call's success), both on a correct passphrase (42 here) and on
a wrong one (41), where no notification is emitted and the error is
surfaced. -/
theorem claim_C9 :
    (fiveAccount.Unlock 42).unlockCalls = 2
    ∧ (fiveAccount.Unlock 42).ret = .ok ()
    ∧ (fiveAccount.Unlock 42).notified = true
    ∧ (fiveAccount.Unlock 41).unlockCalls = 2
    ∧ (fiveAccount.Unlock 41).ret = .error "wrong passphrase"
    ∧ (fiveAccount.Unlock 41).notified = false := by
  exact ⟨rfl, rfl, rfl, rfl, rfl, rfl⟩

/-- Looking up an address immediately after marking it for an account
finds that account. -/
lemma lookup_mark (address account : String) (reg : Registry) :
    LookupAccountByAddress (MarkAddressForAccount address account reg) address
      = some account := by
  unfold LookupAccountByAddress MarkAddressForAccount
  rw [List.find?_cons_of_pos]
  · rfl
  · simp

/-- The best-effort flush never changes the account name. -/
lemma writeDirtyToDisk_name (a : Account) (f : Bool) :
    ((writeDirtyToDisk a f).1).name = a.name := by
  cases f <;> rfl

/-- A world whose account is the five-record sample account, with an
empty registry and no outstanding node-peer requests. -/
def sampleWorld : World :=
  { acct := fiveAccount
    registry := []
    txNotifyRequests := []
    rescanRequests := [] }

/-- A well-formed WIF key for the wrong network (the sample wallet is on
network 1). -/
def mismatchWif : Wif :=
  { valid := true, privKey := 88, net := 2, compressed := false }

/-- A well-formed WIF key for the sample wallet's own network. -/
def goodWif : Wif :=
  { valid := true, privKey := 77, net := 1, compressed := true }

/-- Claim C5: importing a WIF key whose decoded network differs from the
account's network fails with the wrong-network error before any
mutation: the whole world state -- wallet, both ledgers, dirty flags,
registry and outbound request logs -- is returned unchanged, both from
ImportWIFPrivateKey and from the ImportPrivKey wrapper. -/
theorem claim_C5 (w : World) (wif : Wif) (bs : BlockStamp)
    (flushOk rescan flushOk2 : Bool)
    (hv : wif.valid = true) (hn : wif.net ≠ w.acct.wallet.net) :
    w.ImportWIFPrivateKey wif bs flushOk = { world := w, ret := .error "wrong network" }
    ∧ w.ImportPrivKey wif rescan flushOk flushOk2 = (w, .error "wrong network") := by
  have hd : DecodePrivateKey wif = .ok (wif.privKey, wif.net, wif.compressed) := by
    simp [DecodePrivateKey, hv]
  have h1 : ∀ bs' : BlockStamp, w.ImportWIFPrivateKey wif bs' flushOk
      = { world := w, ret := .error "wrong network" } := by
    intro bs'
    simp [World.ImportWIFPrivateKey, hd, Account.Net, hn]
  refine ⟨h1 bs, ?_⟩
  simp [World.ImportPrivKey, h1 { height := 0, hash := 0 }]

/-- Concrete instance of claim C5: importing a network-2 key into the
network-1 sample account. -/
theorem claim_C5_witness :
    sampleWorld.ImportWIFPrivateKey mismatchWif { height := 0, hash := 0 } true
      = { world := sampleWorld, ret := .error "wrong network" } :=
  (claim_C5 sampleWorld mismatchWif { height := 0, hash := 0 } true false true
    rfl (by decide)).1

/-- Claim C6: whenever NewAddress or ImportWIFPrivateKey returns
successfully, looking the returned address up in the registry succeeds
and yields the account's name. -/
theorem claim_C6 (w : World) (cur : CurBlockResult) (flushOk : Bool)
    (wif : Wif) (bs : BlockStamp) (flushOk2 : Bool) :
    (∀ w2 addr, w.NewAddress cur flushOk = { world := w2, ret := .ok addr } →
      LookupAccountByAddress w2.registry addr.EncodeAddress = some w.acct.name)
    ∧ (∀ addrStr, (w.ImportWIFPrivateKey wif bs flushOk2).ret = .ok addrStr →
        LookupAccountByAddress (w.ImportWIFPrivateKey wif bs flushOk2).world.registry
          addrStr = some w.acct.name) := by
  constructor
  · intro w2 addr heq
    by_cases hc : cur.2
    · simp [World.NewAddress, hc] at heq
    · cases hnext : w.acct.wallet.NextChainedAddress cur.1 with
      | error e => simp [World.NewAddress, hc, hnext] at heq
      | ok p =>
        obtain ⟨wal2, addr2⟩ := p
        simp only [World.NewAddress, hc, Bool.false_eq_true, if_neg,
          not_false_iff, hnext, OpOut.mk.injEq] at heq
        obtain ⟨hw2, haddr⟩ := heq
        cases haddr
        rw [← hw2]
        rw [writeDirtyToDisk_name]
        exact lookup_mark _ _ _
  · cases flushOk2 with
    | false =>
      intro addrStr hret
      by_cases hv : wif.valid
      · by_cases hn : wif.net ≠ w.acct.Net
        · simp [World.ImportWIFPrivateKey, DecodePrivateKey, hv, hn] at hret
        · by_cases hl : w.acct.wallet.locked
          · simp [World.ImportWIFPrivateKey, DecodePrivateKey, hv, hn,
              Wallet.ImportPrivateKey, hl] at hret
          · simp [World.ImportWIFPrivateKey, DecodePrivateKey, hv, hn,
              Wallet.ImportPrivateKey, hl, writeDirtyToDisk] at hret
      · simp [World.ImportWIFPrivateKey, DecodePrivateKey, hv] at hret
    | true =>
      intro addrStr hret
      by_cases hv : wif.valid
      · by_cases hn : wif.net ≠ w.acct.Net
        · simp [World.ImportWIFPrivateKey, DecodePrivateKey, hv, hn] at hret
        · by_cases hl : w.acct.wallet.locked
          · simp [World.ImportWIFPrivateKey, DecodePrivateKey, hv, hn,
              Wallet.ImportPrivateKey, hl] at hret
          · simp only [World.ImportWIFPrivateKey, DecodePrivateKey, hv, hn,
              Wallet.ImportPrivateKey, hl, writeDirtyToDisk, ite_true, ite_false,
              if_true, Bool.false_eq_true, not_false_iff, if_neg] at hret ⊢
            simp only [Except.ok.injEq] at hret
            rw [← hret]
            exact lookup_mark _ _ _
      · simp [World.ImportWIFPrivateKey, DecodePrivateKey, hv] at hret

/-- Concrete instance of claim C6: issuing a new address on the sample
world registers it under the account's name. -/
theorem claim_C6_witness :
    LookupAccountByAddress
      ((sampleWorld.NewAddress ({ height := 7, hash := 0 }, false) true).world.registry)
      (Address.EncodeAddress ⟨2⟩) = some "five" :=
  (claim_C6 sampleWorld ({ height := 7, hash := 0 }, false) true goodWif
      { height := 0, hash := 0 } true).1
    (sampleWorld.NewAddress ({ height := 7, hash := 0 }, false) true).world ⟨2⟩ (by rfl)

/-- Claim C3, as stated, is false on the code: with a valid same-network
key and an unlocked wallet the in-memory import succeeds and the dirty
flag is set, yet when the disk flush fails ImportWIFPrivateKey reports
an error to its caller instead of success (and skips registering the
address). -/
theorem claim_C3_counterexample :
    (sampleWorld.ImportWIFPrivateKey goodWif { height := 0, hash := 0 } false).ret
        = .error "import failed: cannot write wallet: write failed"
    ∧ (sampleWorld.ImportWIFPrivateKey goodWif { height := 0, hash := 0 } false).world.acct.dirty
        = true
    ∧ (sampleWorld.ImportWIFPrivateKey goodWif
        { height := 0, hash := 0 } false).world.acct.wallet.importedKeys
        = [{ key := 77, compressed := true, birth := { height := 0, hash := 0 } }] := by
  exact ⟨rfl, rfl, rfl⟩

/-- Claim C3 (amended): a disk-flush failure after a successful
in-memory mutation leaves the in-memory state authoritative and the
dirty flag set in every case, but only NewAddress still reports success
(and still registers the address); ImportWIFPrivateKey instead returns
an import-failed error to its caller and leaves the address
unregistered. -/
theorem claim_C3 (w : World) (cur : CurBlockResult) (wif : Wif) (bs : BlockStamp)
    (hg : cur.2 = false) (hcf : w.acct.wallet.chainFail = false)
    (hv : wif.valid = true) (hn : wif.net = w.acct.wallet.net)
    (hl : w.acct.wallet.locked = false) :
    (w.NewAddress cur false).ret = .ok ⟨w.acct.wallet.chainIndex⟩
    ∧ (w.NewAddress cur false).world.acct.dirty = true
    ∧ LookupAccountByAddress (w.NewAddress cur false).world.registry
        (Address.EncodeAddress ⟨w.acct.wallet.chainIndex⟩) = some w.acct.name
    ∧ (w.ImportWIFPrivateKey wif bs false).ret
        = .error "import failed: cannot write wallet: write failed"
    ∧ (w.ImportWIFPrivateKey wif bs false).world.acct.dirty = true
    ∧ (w.ImportWIFPrivateKey wif bs false).world.acct.wallet.importedKeys
        = w.acct.wallet.importedKeys
            ++ [{ key := wif.privKey, compressed := wif.compressed, birth := bs }]
    ∧ (w.ImportWIFPrivateKey wif bs false).world.registry = w.registry := by
  have hnn : ¬ (wif.net ≠ w.acct.Net) := by simp [Account.Net, hn]
  refine ⟨?_, ?_, ?_, ?_, ?_, ?_, ?_⟩ <;>
    simp [World.NewAddress, hg, Wallet.NextChainedAddress, hcf, writeDirtyToDisk,
      World.ImportWIFPrivateKey, DecodePrivateKey, hv, hnn, Wallet.ImportPrivateKey,
      hl, MarkAddressForAccount, LookupAccountByAddress]

/-- Concrete instance of claim C3 (amended): the import on the sample
world with a failing flush reports the import-failed error. -/
theorem claim_C3_witness :
    (sampleWorld.ImportWIFPrivateKey goodWif { height := 3, hash := 1 } false).ret
      = .error "import failed: cannot write wallet: write failed" :=
  (claim_C3 sampleWorld ({ height := 3, hash := 1 }, false) goodWif
    { height := 3, hash := 1 } rfl rfl rfl rfl rfl).2.2.2.1

/-- Claim C7: CurrentAddress returns the wallet's most recently issued
chained address when it is unused and otherwise behaves exactly as a
NewAddress call; AddressUsed holds for an address precisely when some
receive record in the transaction store targets its pubkey hash. -/
theorem claim_C7 (w : World) (cur : CurBlockResult) (flushOk : Bool) :
    (w.acct.AddressUsed w.acct.wallet.LastChainedAddress = false →
      w.CurrentAddress cur flushOk
        = { world := w, ret := .ok w.acct.wallet.LastChainedAddress })
    ∧ (w.acct.AddressUsed w.acct.wallet.LastChainedAddress = true →
      w.CurrentAddress cur flushOk = w.NewAddress cur flushOk)
    ∧ (∀ addr : Address, w.acct.AddressUsed addr = true ↔
        ∃ r ∈ w.acct.txStore,
          ∃ txh amt ht, r = TxRecord.recvTx txh addr.pkHash amt ht) := by
  refine ⟨?_, ?_, ?_⟩
  · intro h
    simp [World.CurrentAddress, h]
  · intro h
    simp [World.CurrentAddress, h]
  · intro addr
    rw [Account.AddressUsed, List.any_eq_true]
    constructor
    · rintro ⟨r, hr, hp⟩
      refine ⟨r, hr, ?_⟩
      cases r with
      | recvTx txh rh amt ht =>
        simp only [beq_iff_eq] at hp
        exact ⟨txh, amt, ht, by rw [hp]⟩
      | sendTx txh outs ht => simp at hp
    · rintro ⟨r, hr, txh, amt, ht, rfl⟩
      exact ⟨_, hr, by simp⟩

/-- Concrete instance of claim C7: the sample account's last chained
address is unused, so CurrentAddress returns it without issuing. -/
theorem claim_C7_witness :
    sampleWorld.CurrentAddress ({ height := 9, hash := 0 }, false) true
      = { world := sampleWorld, ret := .ok sampleWorld.acct.wallet.LastChainedAddress } :=
  (claim_C7 sampleWorld ({ height := 9, hash := 0 }, false) true).1 (by decide)
